import Mathlib

/-!
Verification of the event-stream ingestion and recovery pipeline of
`bridge/particle-bridge.py` (SSE frame decoder, two-layer JSON envelope
processing, connection supervisor with exponential backoff).

The Python source is shallowly embedded: the stream-decoding loop, the
envelope-validation logic of `main`, the `process_event` function and the
retry/backoff state machine are translated into executable Lean functions
over `List Char`.  `json.loads` is modelled by an executable JSON parser
(`parseJson`) following the grammar of Python's `json/decoder.py`,
including the default-accepted `NaN`/`Infinity`/`-Infinity` constants,
which are kept as explicit non-finite markers; finite numbers are
idealized as exact rationals (`ℚ`), which is exact for the decimal
literals appearing in the spec scenarios.  Python exceptions are modelled
with `Option`/`Except`: a `none`/`.error` escaping a handler corresponds
to an uncaught exception tearing down the connection.
-/

set_option autoImplicit false

namespace Bridge

/-! ## Character helpers -/

/-- Python `json` whitespace: space, tab, newline, carriage return. -/
def isJsonWS (c : Char) : Bool :=
  c = ' ' ∨ c = '\t' ∨ c = '\n' ∨ c = '\r'

/-- ASCII whitespace stripped by Python's `str.strip()` / `int()` / `float()`
(the unicode whitespace cases are irrelevant to this byte-oriented stream). -/
def isPySpace (c : Char) : Bool :=
  c = ' ' ∨ c = '\t' ∨ c = '\n' ∨ c = '\r' ∨ c = '\x0b' ∨ c = '\x0c'

def isDigit (c : Char) : Bool :=
  '0' ≤ c ∧ c ≤ '9'

/-- Python's `l.startswith(pat)`, as `startsWithSeq pat l`. -/
def startsWithSeq : List Char → List Char → Bool
  | [], _ => true
  | _ :: _, [] => false
  | p :: ps, c :: cs => p = c && startsWithSeq ps cs

/-- Python's substring test `pat in l`, as `containsSeq pat l`. -/
def containsSeq (pat : List Char) : List Char → Bool
  | [] => startsWithSeq pat []
  | c :: cs => startsWithSeq pat (c :: cs) || containsSeq pat cs

/-! ## SSE frame decoder

The stream loop of `main`:

    buffer = ''
    for chunk in response.iter_content(chunk_size=1, decode_unicode=True):
        if chunk:
            buffer += chunk
            if '\n\n' in buffer:
                messages = buffer.split('\n\n')
                buffer = messages[-1]
                for message in messages[:-1]:
                    if message.strip():
                        lines = message.split('\n')
                        event_data = None
                        for line in lines:
                            if line.startswith('data: '):
                                event_data = line[6:]
                                break
                        if event_data:
                            ...  (envelope processing)
-/

/-- Python's `'\n\n' in buffer` (substring containment, specialized). -/
def containsNN : List Char → Bool
  | [] => false
  | [_] => false
  | c :: d :: rest =>
    if c = '\n' ∧ d = '\n' then true else containsNN (d :: rest)

/-- Python's `buffer.split('\n\n')`, returned as
(completed pieces `messages[:-1]`, trailing piece `messages[-1]`).
Greedy non-overlapping left-to-right scan, exactly as `str.split`. -/
def splitNN : List Char → List (List Char) × List Char
  | [] => ([], [])
  | [c] => ([], [c])
  | c :: d :: rest =>
    if c = '\n' ∧ d = '\n' then
      ([] :: (splitNN rest).1, (splitNN rest).2)
    else
      match splitNN (d :: rest) with
      | ([], r2) => ([], c :: r2)
      | (p :: ps, r2) => ((c :: p) :: ps, r2)

/-- Python's `message.split('\n')`. -/
def splitLines : List Char → List (List Char)
  | [] => [[]]
  | c :: rest =>
    if c = '\n' then [] :: splitLines rest
    else
      match splitLines rest with
      | [] => [[c]]
      | l :: ls => (c :: l) :: ls

/-- The literal prefix `'data: '` tested by the line scan. -/
def dataMark : List Char := "data: ".toList

/-- One line of the scan: `if line.startswith('data: '): event_data = line[6:]`. -/
def lineData (line : List Char) : Option (List Char) :=
  if startsWithSeq dataMark line then some (line.drop 6) else none

/-- The `for line in lines: ... break` scan: first `data: ` line's remainder. -/
def findData : List (List Char) → Option (List Char)
  | [] => none
  | line :: rest =>
    match lineData line with
    | some payload => some payload
    | none => findData rest

/-- What a single completed message contributes to the payload stream:
`if message.strip():` then the line scan, then `if event_data:`
(truthiness: `None` and the empty string are both skipped). -/
def msgEmit (msg : List Char) : Option (List Char) :=
  if msg.all isPySpace then none
  else
    match findData (splitLines msg) with
    | some (c :: rest) => some (c :: rest)
    | _ => none

/-- One iteration of the chunk loop: returns the new buffer and the payloads
emitted while consuming this chunk. -/
def feedStep (buf chunk : List Char) : List Char × List (List Char) :=
  if chunk = [] then (buf, [])
  else
    let b := buf ++ chunk
    if containsNN b then
      ((splitNN b).2, (splitNN b).1.filterMap msgEmit)
    else (b, [])

/-- The chunk loop over a whole sequence of chunks, from buffer `buf`:
final buffer and the ordered sequence of emitted payloads. -/
def runDecoder (buf : List Char) : List (List Char) → List Char × List (List Char)
  | [] => (buf, [])
  | c :: cs =>
    let s1 := feedStep buf c
    let s2 := runDecoder s1.1 cs
    (s2.1, s1.2 ++ s2.2)

/-! ## JSON values and `json.loads`

Python's `json.loads` is modelled by an executable recursive-descent parser
for the grammar implemented by `json/decoder.py`:
`-?(0|[1-9]\d*)(\.\d+)?([eE][+-]?\d+)?` numbers, double-quoted strings with
the standard escapes, no trailing commas, `\s` = space/tab/newline/return,
and the default-accepted constants `NaN`, `Infinity`, `-Infinity`.
Finite numbers are idealized as exact rationals; the non-finite constants
are kept as explicit markers so that the per-type behaviour of the Python
operations on them (they are floats: not containers, not sliceable) is
preserved. -/

/-- The three non-finite constants Python's `json.loads` accepts by
default (`parse_constant` is not overridden in the source). -/
inductive NonFinKind where
  | nan
  | plusInf
  | minusInf
deriving DecidableEq

inductive Json where
  | null
  | bool (b : Bool)
  | num (q : ℚ)
  | nonfinite (k : NonFinKind)
  | str (s : List Char)
  | arr (xs : List Json)
  | obj (kvs : List (List Char × Json))

mutual

/-- Structural decidable equality for `Json` (the nested inductive rules
out `deriving`). -/
def Json.decEq : (a b : Json) → Decidable (a = b)
  | .null, .null => isTrue rfl
  | .bool a, .bool b =>
    if h : a = b then isTrue (by rw [h])
    else isFalse (by intro hh; injection hh; exact h ‹_›)
  | .num a, .num b =>
    if h : a = b then isTrue (by rw [h])
    else isFalse (by intro hh; injection hh; exact h ‹_›)
  | .str a, .str b =>
    if h : a = b then isTrue (by rw [h])
    else isFalse (by intro hh; injection hh; exact h ‹_›)
  | .arr xs, .arr ys =>
    match Json.decEqList xs ys with
    | isTrue h => isTrue (by rw [h])
    | isFalse h => isFalse (by intro hh; injection hh; exact h ‹_›)
  | .obj xs, .obj ys =>
    match Json.decEqKVs xs ys with
    | isTrue h => isTrue (by rw [h])
    | isFalse h => isFalse (by intro hh; injection hh; exact h ‹_›)
  | .nonfinite a, .nonfinite b =>
    if h : a = b then isTrue (by rw [h])
    else isFalse (by intro hh; injection hh; exact h ‹_›)
  | .null, .bool _ | .null, .num _ | .null, .str _ | .null, .arr _ | .null, .obj _
  | .null, .nonfinite _
  | .bool _, .null | .bool _, .num _ | .bool _, .str _ | .bool _, .arr _ | .bool _, .obj _
  | .bool _, .nonfinite _
  | .num _, .null | .num _, .bool _ | .num _, .str _ | .num _, .arr _ | .num _, .obj _
  | .num _, .nonfinite _
  | .str _, .null | .str _, .bool _ | .str _, .num _ | .str _, .arr _ | .str _, .obj _
  | .str _, .nonfinite _
  | .arr _, .null | .arr _, .bool _ | .arr _, .num _ | .arr _, .str _ | .arr _, .obj _
  | .arr _, .nonfinite _
  | .obj _, .null | .obj _, .bool _ | .obj _, .num _ | .obj _, .str _ | .obj _, .arr _
  | .obj _, .nonfinite _
  | .nonfinite _, .null | .nonfinite _, .bool _ | .nonfinite _, .num _
  | .nonfinite _, .str _ | .nonfinite _, .arr _ | .nonfinite _, .obj _ =>
    isFalse (by intro hh; exact Json.noConfusion hh)

def Json.decEqList : (xs ys : List Json) → Decidable (xs = ys)
  | [], [] => isTrue rfl
  | [], _ :: _ => isFalse (by intro h; cases h)
  | _ :: _, [] => isFalse (by intro h; cases h)
  | x :: xs, y :: ys =>
    match Json.decEq x y with
    | isFalse h => isFalse (by intro hh; injection hh; exact h ‹_›)
    | isTrue h1 =>
      match Json.decEqList xs ys with
      | isTrue h2 => isTrue (by rw [h1, h2])
      | isFalse h => isFalse (by intro hh; injection hh; exact h ‹_›)

def Json.decEqKVs : (xs ys : List (List Char × Json)) → Decidable (xs = ys)
  | [], [] => isTrue rfl
  | [], _ :: _ => isFalse (by intro h; cases h)
  | _ :: _, [] => isFalse (by intro h; cases h)
  | (k1, v1) :: xs, (k2, v2) :: ys =>
    if hk : k1 = k2 then
      match Json.decEq v1 v2 with
      | isFalse h =>
        isFalse (by
          intro hh
          injection hh with h1 h2
          injection h1
          exact h ‹_›)
      | isTrue h1 =>
        match Json.decEqKVs xs ys with
        | isTrue h2 => isTrue (by rw [hk, h1, h2])
        | isFalse h => isFalse (by intro hh; injection hh; exact h ‹_›)
    else
      isFalse (by
        intro hh
        injection hh with h1 h2
        injection h1
        exact hk ‹_›)

end

instance : DecidableEq Json := Json.decEq

/-- Python `dict` lookup for a dict built by `json.loads`: a duplicated key
keeps its last value. -/
def objGet (kvs : List (List Char × Json)) (k : List Char) : Option Json :=
  match kvs with
  | [] => none
  | (k', v) :: rest =>
    match objGet rest k with
    | some r => some r
    | none => if k' = k then some v else none

/-- Dict access `d[k]` on a parsed value when `d` is a JSON object; `none` otherwise. -/
def jsonGet (d : Json) (k : List Char) : Option Json :=
  match d with
  | .obj kvs => objGet kvs k
  | _ => none

/-- Skip JSON whitespace. -/
def skipWS : List Char → List Char
  | [] => []
  | c :: cs => if isJsonWS c then skipWS cs else c :: cs

def hexVal (c : Char) : Option Nat :=
  if isDigit c then some (c.toNat - 48)
  else if 'a' ≤ c ∧ c ≤ 'f' then some (c.toNat - 87)
  else if 'A' ≤ c ∧ c ≤ 'F' then some (c.toNat - 55)
  else none

/-- Body of a JSON string after the opening quote: returns the decoded
characters and the input after the closing quote.  Control characters are
rejected (strict mode); `\uXXXX` is decoded by code point. -/
def parseStrBody : List Char → Option (List Char × List Char)
  | [] => none
  | '"' :: rest => some ([], rest)
  | '\\' :: esc =>
    match esc with
    | '"' :: r => (parseStrBody r).map (fun p => ('"' :: p.1, p.2))
    | '\\' :: r => (parseStrBody r).map (fun p => ('\\' :: p.1, p.2))
    | '/' :: r => (parseStrBody r).map (fun p => ('/' :: p.1, p.2))
    | 'b' :: r => (parseStrBody r).map (fun p => ('\x08' :: p.1, p.2))
    | 'f' :: r => (parseStrBody r).map (fun p => ('\x0c' :: p.1, p.2))
    | 'n' :: r => (parseStrBody r).map (fun p => ('\n' :: p.1, p.2))
    | 'r' :: r => (parseStrBody r).map (fun p => ('\r' :: p.1, p.2))
    | 't' :: r => (parseStrBody r).map (fun p => ('\t' :: p.1, p.2))
    | 'u' :: h1 :: h2 :: h3 :: h4 :: r =>
      match hexVal h1, hexVal h2, hexVal h3, hexVal h4 with
      | some a, some b, some c, some d =>
        (parseStrBody r).map
          (fun p => (Char.ofNat (((a * 16 + b) * 16 + c) * 16 + d) :: p.1, p.2))
      | _, _, _, _ => none
    | _ => none
  | c :: rest =>
    if c.toNat < 32 then none
    else (parseStrBody rest).map (fun p => (c :: p.1, p.2))

def digitsToNat (ds : List Char) : Nat :=
  ds.foldl (fun a c => a * 10 + (c.toNat - 48)) 0

/-- Longest run of leading decimal digits. -/
def spanDigits : List Char → List Char × List Char
  | [] => ([], [])
  | c :: cs =>
    if isDigit c then
      let p := spanDigits cs
      (c :: p.1, p.2)
    else ([], c :: cs)

/-- The optional fraction part `(\.\d+)?`: consumed only when the dot is
followed by at least one digit, exactly like the JSON number regex. -/
def numFracPart (r : List Char) : List Char × List Char :=
  match r with
  | '.' :: rr =>
    match spanDigits rr with
    | ([], _) => ([], r)
    | (ds, rr2) => (ds, rr2)
  | _ => ([], r)

/-- The optional exponent part `([eE][+-]?\d+)?`, as a signed exponent. -/
def numExpPart (r : List Char) : Int × List Char :=
  match r with
  | c :: rest =>
    if c = 'e' ∨ c = 'E' then
      match rest with
      | '+' :: rr =>
        match spanDigits rr with
        | ([], _) => (0, r)
        | (ds, q) => ((digitsToNat ds : Int), q)
      | '-' :: rr =>
        match spanDigits rr with
        | ([], _) => (0, r)
        | (ds, q) => (-(digitsToNat ds : Int), q)
      | _ =>
        match spanDigits rest with
        | ([], _) => (0, r)
        | (ds, q) => ((digitsToNat ds : Int), q)
    else (0, r)
  | [] => (0, r)

/-- Assemble a rational from sign, integer part, fraction digits and
exponent: the value `±(ip.fracDs) · 10^ex`, built with a single `mkRat`
(no ℚ arithmetic, so concrete values reduce). -/
def ratOfParts (neg : Bool) (ip : Nat) (fracDs : List Char) (ex : Int) : ℚ :=
  let k := fracDs.length
  let mant : Int := (ip * 10 ^ k + digitsToNat fracDs : Nat)
  let mant := if neg then -mant else mant
  if 0 ≤ ex then mkRat (mant * (10 : Int) ^ ex.toNat) (10 ^ k)
  else mkRat mant (10 ^ (k + (-ex).toNat))

/-- JSON number: `-?(0|[1-9]\d*)(\.\d+)?([eE][+-]?\d+)?`. -/
def parseNumber (l : List Char) : Option (ℚ × List Char) :=
  let sp : Bool × List Char := match l with
    | '-' :: r => (true, r)
    | _ => (false, l)
  match sp.2 with
  | '0' :: r =>
    let fp := numFracPart r
    let ep := numExpPart fp.2
    some (ratOfParts sp.1 0 fp.1 ep.1, ep.2)
  | c :: r =>
    if isDigit c ∧ c ≠ '0' then
      let ds := spanDigits r
      let fp := numFracPart ds.2
      let ep := numExpPart fp.2
      some (ratOfParts sp.1 (digitsToNat (c :: ds.1)) fp.1 ep.1, ep.2)
    else none
  | [] => none

mutual

/-- One JSON value (leading whitespace allowed), fuel-bounded.  Fuel is
spent only when descending into arrays, objects and their element/member
chains (each descent consumes input), never on scanning characters. -/
def parseValue : Nat → List Char → Option (Json × List Char)
  | 0, _ => none
  | f + 1, l =>
    match skipWS l with
    | 't' :: 'r' :: 'u' :: 'e' :: r => some (.bool true, r)
    | 'f' :: 'a' :: 'l' :: 's' :: 'e' :: r => some (.bool false, r)
    | 'n' :: 'u' :: 'l' :: 'l' :: r => some (.null, r)
    | 'N' :: 'a' :: 'N' :: r => some (.nonfinite .nan, r)
    | 'I' :: 'n' :: 'f' :: 'i' :: 'n' :: 'i' :: 't' :: 'y' :: r =>
      some (.nonfinite .plusInf, r)
    | '-' :: 'I' :: 'n' :: 'f' :: 'i' :: 'n' :: 'i' :: 't' :: 'y' :: r =>
      some (.nonfinite .minusInf, r)
    | '"' :: r => (parseStrBody r).map (fun p => (.str p.1, p.2))
    | '[' :: r =>
      (parseElems f (skipWS r)).map (fun p => (.arr p.1, p.2))
    | '\x7b' :: r =>
      (parseMembers f (skipWS r)).map (fun p => (.obj p.1, p.2))
    | c :: r =>
      if c = '-' ∨ isDigit c then
        (parseNumber (c :: r)).map (fun p => (.num p.1, p.2))
      else none
    | [] => none

/-- Array elements after `[` (whitespace skipped): `]` or a comma list. -/
def parseElems : Nat → List Char → Option (List Json × List Char)
  | 0, _ => none
  | f + 1, l =>
    match l with
    | ']' :: r => some ([], r)
    | _ => parseElemSeq f l

/-- Nonempty comma-separated element list, ending at `]`. -/
def parseElemSeq : Nat → List Char → Option (List Json × List Char)
  | 0, _ => none
  | f + 1, l =>
    match parseValue f l with
    | none => none
    | some (v, r1) =>
      match skipWS r1 with
      | ',' :: r2 =>
        match parseElemSeq f r2 with
        | none => none
        | some (vs, r3) => some (v :: vs, r3)
      | ']' :: r2 => some ([v], r2)
      | _ => none

/-- Object members after the opening brace (whitespace skipped):
closing brace or a comma list. -/
def parseMembers : Nat → List Char → Option (List (List Char × Json) × List Char)
  | 0, _ => none
  | f + 1, l =>
    match l with
    | '\x7d' :: r => some ([], r)
    | _ => parseMemberSeq f l

/-- Nonempty comma-separated `"key": value` list, ending at the closing
brace; no trailing comma. -/
def parseMemberSeq : Nat → List Char → Option (List (List Char × Json) × List Char)
  | 0, _ => none
  | f + 1, l =>
    match l with
    | '"' :: r =>
      match parseStrBody r with
      | none => none
      | some (k, r1) =>
        match skipWS r1 with
        | ':' :: r2 =>
          match parseValue f r2 with
          | none => none
          | some (v, r3) =>
            match skipWS r3 with
            | ',' :: r4 =>
              match parseMemberSeq f (skipWS r4) with
              | none => none
              | some (ms, r5) => some ((k, v) :: ms, r5)
            | '\x7d' :: r4 => some ([(k, v)], r4)
            | _ => none
        | _ => none
    | _ => none

end

/-- Python's `json.loads(s)` for a `str` argument: one value, then only trailing
whitespace ("Extra data" otherwise).  `none` is `JSONDecodeError`.

The fuel `2 * s.length + 2` never starves on well-formed input: a nesting
descent costs 3 fuel and consumes at least 2 characters of a complete
value (its opening and closing bracket), and an element/member step costs
1 fuel and consumes at least 2 characters, so at most `3/2` fuel is spent
per character overall. -/
def parseJson (s : List Char) : Option Json :=
  match parseValue (2 * s.length + 2) s with
  | some (v, rest) => if skipWS rest = [] then some v else none
  | none => none

/-! ## Python operations on parsed JSON values

The wrapper-handling code applies Python operations to arbitrary decoded
values; each is modelled with its exact per-type behaviour, `Except`/`Option`
failure standing for a raised `TypeError`/`KeyError`/`ValueError`. -/

def keyMem (kvs : List (List Char × Json)) (k : List Char) : Bool :=
  kvs.any (fun p => p.1 = k)

/-- Python `needle in w` for a string needle: key test on a dict, element
test on a list (only a `str` element can equal a `str`), substring test on
a `str`, and a `TypeError` on numbers, booleans and `None`. -/
def pyIn (needle : List Char) (w : Json) : Except Unit Bool :=
  match w with
  | .obj kvs => .ok (keyMem kvs needle)
  | .arr xs => .ok (xs.any (fun x => match x with | .str s => s = needle | _ => false))
  | .str s => .ok (containsSeq needle s)
  | _ => .error ()

/-- Python `w[k]` for a string key `k`: dict lookup; indexing a `str` or
`list` (or anything else) by a string raises `TypeError` (`none`). -/
def pyIndexStr (w : Json) (k : List Char) : Option Json :=
  match w with
  | .obj kvs => objGet kvs k
  | _ => none

/-- Whether Python `v[:100]` succeeds: only sequences (`str`, `list`)
support slicing among JSON-decoded values. -/
def sliceOk (v : Json) : Bool :=
  match v with
  | .str _ => true
  | .arr _ => true
  | _ => false

/-- Python `str.strip()` (ASCII whitespace; see `isPySpace`). -/
def pyStrip (s : List Char) : List Char :=
  ((s.dropWhile isPySpace).reverse.dropWhile isPySpace).reverse

/-- Python `int(s)` on a `str`: optional sign then decimal digits, with
surrounding whitespace allowed.  (Digit-group underscores are not
modelled.)  `none` is a raised `ValueError`. -/
def pyIntOfStr (s : List Char) : Option Int :=
  let t := pyStrip s
  let sp : Bool × List Char := match t with
    | '-' :: r => (true, r)
    | '+' :: r => (false, r)
    | _ => (false, t)
  match sp.2 with
  | [] => none
  | ds =>
    if ds.all isDigit then
      some (if sp.1 then -(digitsToNat ds : Int) else (digitsToNat ds : Int))
    else none

/-- Python `float(s)` on a `str`: sign, digits with optional `.` (at least
one digit overall), optional exponent; surrounding whitespace allowed.
(`inf`/`nan` literals fall outside the rational idealization and
digit-group underscores are not modelled.) -/
def pyFloatOfStr (s : List Char) : Option ℚ :=
  let t := pyStrip s
  let sp : Bool × List Char := match t with
    | '-' :: r => (true, r)
    | '+' :: r => (false, r)
    | _ => (false, t)
  let ipr := spanDigits sp.2
  let fpr : Option (List Char) × List Char := match ipr.2 with
    | '.' :: rr =>
      let p := spanDigits rr
      (some p.1, p.2)
    | _ => (none, ipr.2)
  if ipr.1 = [] ∧ fpr.1.getD [] = [] then none
  else
    match fpr.2 with
    | [] => some (ratOfParts sp.1 (digitsToNat ipr.1) (fpr.1.getD []) 0)
    | c :: rest =>
      if c = 'e' ∨ c = 'E' then
        let sp2 : Bool × List Char := match rest with
          | '+' :: rr => (false, rr)
          | '-' :: rr => (true, rr)
          | _ => (false, rest)
        let dsr := spanDigits sp2.2
        if dsr.1 = [] ∨ dsr.2 ≠ [] then none
        else
          some (ratOfParts sp.1 (digitsToNat ipr.1) (fpr.1.getD [])
            (if sp2.1 then -(digitsToNat dsr.1 : Int) else (digitsToNat dsr.1 : Int)))
      else none

/-- Python `int(v)` on a JSON-decoded value: truncation toward zero on
numbers, `True`/`False` as `1`/`0`, literal parse on strings; `TypeError`
otherwise, and `int(nan)`/`int(inf)` raise `ValueError`/`OverflowError` —
every raising case is `none`, caught by the same catch-all handler. -/
def pyIntOfJson : Json → Option Int
  | .num q => some (q.num.tdiv q.den)
  | .bool b => some (if b then 1 else 0)
  | .str s => pyIntOfStr s
  | _ => none

/-- Python `float(v)` on a JSON-decoded value.  Field values are exact
rationals in this model, so coercing a non-finite value — which CPython
would pass through as a `float` — is modelled as a failed coercion; this
boundary of the rational idealization affects only whether such a reading
is written or discarded, never the connection state. -/
def pyFloatOfJson : Json → Option ℚ
  | .num q => some q
  | .bool b => some (if b then 1 else 0)
  | .str s => pyFloatOfStr s
  | _ => none

/-! ## Envelope processing and the Sink -/

/-- The Time-Series Point built by `process_event`:
`Point(data['measurement']).tag('location', ...).tag('device', ...)
.field('temperature', float(...)).field('humidity', float(...))
.time(timestamp_ns)`.  Tag values and the measurement are stored as the
decoded values handed to the client library; the two field values are the
`float(...)` coercions; `time` is the nanosecond timestamp. -/
structure Point where
  measurement : Json
  location : Json
  device : Json
  temperature : ℚ
  humidity : ℚ
  time : Int
deriving DecidableEq

/-- Outcome of `process_event`: its own `except json.JSONDecodeError`
branch, its catch-all `except Exception` branch (key/type/value errors
while printing, extracting, coercing, or a failed Sink write), or a
completed Sink write.  `process_event` never lets an exception escape. -/
inductive PEResult where
  | decodeErr
  | genErr
  | wrote (p : Point)
deriving DecidableEq

def measKey : List Char := "measurement".toList
def tagsKey : List Char := "tags".toList
def fieldsKey : List Char := "fields".toList
def tsKey : List Char := "timestamp".toList
def locKey : List Char := "location".toList
def devKey : List Char := "device".toList
def tempKey : List Char := "temperature".toList
def humKey : List Char := "humidity".toList
def dataKey : List Char := "data".toList

/-- The extraction and conversion work of `process_event` after the parse:
the log prints access `data['measurement']`, `data['tags']`,
`data['fields']`, `data['timestamp']` (in that order), then
`timestamp_ns = int(data['timestamp']) * 1_000_000_000`, then the point is
built from `data['tags']['location']`, `data['tags']['device']`,
`float(data['fields']['temperature'])`, `float(data['fields']['humidity'])`.
Any raised `KeyError`/`TypeError`/`ValueError` along the way (`none`) is
caught by the catch-all handler of `process_event`. -/
def buildPoint (data : Json) : Option Point := do
  let meas ← jsonGet data measKey
  let _tags0 ← jsonGet data tagsKey
  let _fields0 ← jsonGet data fieldsKey
  let ts ← jsonGet data tsKey
  let n ← pyIntOfJson ts
  let timestamp_ns := n * 1000000000
  let loc ← jsonGet _tags0 locKey
  let dev ← jsonGet _tags0 devKey
  let tv ← jsonGet _fields0 tempKey
  let hv ← jsonGet _fields0 humKey
  let tq ← pyFloatOfJson tv
  let hq ← pyFloatOfJson hv
  some { measurement := meas, location := loc, device := dev
         temperature := tq, humidity := hq, time := timestamp_ns }

/-- The embedding of `process_event(event_data)`: re-parse, extract, build the point and
hand it to the Sink.  The Sink (`write_api.write`) is an external
collaborator, passed as `sink`; `sink p = false` models a write call that
raises (caught by the same catch-all handler as an extraction failure). -/
def process_event (sink : Point → Bool) (event_data : List Char) : PEResult :=
  match parseJson event_data with
  | none => .decodeErr
  | some data =>
    match buildPoint data with
    | none => .genErr
    | some p => if sink p then .wrote p else .genErr

/-- The distinguishable log lines printed while handling one payload. -/
inductive LogKind where
  | eventReceived      -- "Event received, data: ..."
  | noDataField        -- "Event has no data field"
  | notSensorFmt       -- "Event data is not sensor reading format"
  | dataNotJson        -- "Event data is not JSON: ..."
  | wrapperParseErr    -- "Failed to parse event wrapper: ..."
  | validReading       -- "Valid sensor reading found!"
  | procDecodeErr      -- "JSON decode error: ..." (inside process_event)
  | procErr            -- "Error processing event: ..." (inside process_event)
  | wroteOk            -- "✓ Written: ..."
deriving DecidableEq

/-- The spec's log taxonomy (§7): which lines report an error (wrapper
parse failure, and both handlers of `process_event`); the skip lines are
informational. -/
def LogKind.isErrLog : LogKind → Bool
  | .wrapperParseErr => true
  | .procDecodeErr => true
  | .procErr => true
  | _ => false

/-- How one payload's handling ended (which branch of the wrapper logic). -/
inductive PayloadResult where
  | wrapperParseFail          -- outer json.loads failed (caught)
  | noData                    -- 'data' in wrapper was False
  | dataNotJson               -- inner json.loads raised (caught by inner handler)
  | notSensorFmt              -- structural check was False
  | processed (r : PEResult)  -- process_event ran
deriving DecidableEq

def peLogs : PEResult → List LogKind
  | .decodeErr => [.procDecodeErr]
  | .genErr => [.procErr]
  | .wrote _ => [.wroteOk]

/-- The successful Sink writes a payload produced. -/
def resultWrites : PayloadResult → List Point
  | .processed (.wrote p) => [p]
  | _ => []

/-- The stream loop's inner `try` block applied to a `data` string value:
parse it, run the structural membership checks
(`'measurement' in sensor_data and 'fields' in sensor_data`), and
dispatch to `process_event`.  The inner handler catches
`(json.JSONDecodeError, TypeError)`, so a parse failure or a membership
`TypeError` is the logged-and-skipped `dataNotJson` outcome. -/
def sensorCheck (sink : Point → Bool) (s : List Char) : List LogKind × PayloadResult :=
  match parseJson s with
  | none => ([.eventReceived, .dataNotJson], .dataNotJson)
  | some sensor_data =>
    match pyIn measKey sensor_data with
    | .error _ => ([.eventReceived, .dataNotJson], .dataNotJson)
    | .ok false => ([.eventReceived, .notSensorFmt], .notSensorFmt)
    | .ok true =>
      match pyIn fieldsKey sensor_data with
      | .error _ => ([.eventReceived, .dataNotJson], .dataNotJson)
      | .ok false => ([.eventReceived, .notSensorFmt], .notSensorFmt)
      | .ok true =>
        let r := process_event sink s
        ([.eventReceived, .validReading] ++ peLogs r, .processed r)

/-- Handling of one emitted payload (`event_data`) by the stream loop.

`none` models an exception that escapes every frame-level handler and
reaches the connection-level `except Exception` in `main` — tearing down
the connection.  The outer `try` around the wrapper only catches
`json.JSONDecodeError`; therefore the `TypeError`s raised by
`'data' in wrapper` (non-container wrapper), by `wrapper['data']`
(`str`/`list` wrapper) and by `wrapper['data'][:100]` (unsliceable value)
inside the f-string print escape uncaught.  The inner `try` is
`sensorCheck` above. -/
def processPayload (sink : Point → Bool) (event_data : List Char) :
    Option (List LogKind × PayloadResult) :=
  match parseJson event_data with
  | none => some ([.wrapperParseErr], .wrapperParseFail)
  | some wrapper =>
    match pyIn dataKey wrapper with
    | .error _ => none
    | .ok false => some ([.noDataField], .noData)
    | .ok true =>
      match pyIndexStr wrapper dataKey with
      | none => none
      | some v =>
        if sliceOk v then
          match v with
          | .str s => some (sensorCheck sink s)
          | _ =>
            -- value sliced and printed fine, but json.loads(non-str)
            -- raises TypeError, caught by the inner handler
            some ([.eventReceived, .dataNotJson], .dataNotJson)
        else none

/-- Processing the decoded payload sequence in arrival order: collected
successful Sink writes, and whether an uncaught exception tore the
connection down (abandoning the remaining payloads). -/
def runStream (sink : Point → Bool) : List (List Char) → List Point × Bool
  | [] => ([], false)
  | p :: rest =>
    match processPayload sink p with
    | none => ([], true)
    | some out =>
      let s := runStream sink rest
      (resultWrites out.2 ++ s.1, s.2)

/-- End-to-end single-connection pipeline: decode the chunk sequence, then
process every emitted payload. -/
def runBridge (sink : Point → Bool) (chunks : List (List Char)) :
    List Point × Bool :=
  runStream sink (runDecoder [] chunks).2

/-! ## Connection supervisor -/

/-- How one iteration of the `while True` loop went: the connection attempt
failed (`requests.get`/`raise_for_status` raised), or it succeeded and the
stream later ended cleanly, or it succeeded and the stream later raised. -/
inductive Attempt where
  | failConn
  | okClean
  | okThenErr
deriving DecidableEq

/-- Waits performed by the supervisor loop, in order.  State: `retry_delay`
(initially 5).  A failed attempt sleeps `retry_delay` then sets
`retry_delay = min(retry_delay * 2, 60)`.  A successful connection resets
`retry_delay = 5`; if its stream later raises, the handler sleeps the
(reset) delay and doubles it; a cleanly ended stream reconnects without
sleeping. -/
def supervisor : Nat → List Attempt → List Nat
  | _, [] => []
  | d, .failConn :: rest => d :: supervisor (min (d * 2) 60) rest
  | _, .okClean :: rest => supervisor 5 rest
  | _, .okThenErr :: rest => 5 :: supervisor (min (5 * 2) 60) rest

/-! ## A spec-worded definition for the buffered-suffix claim

"the accumulation buffer holds exactly the suffix of the total input
received so far that follows the last `\n\n` delimiter (or the whole input
if no delimiter has occurred)" — with "the last `\n\n` delimiter" read as
the last occurrence of the two-character substring. -/

/-- Suffix after the last substring occurrence of `"\n\n"`, if any
occurrence exists. -/
def afterLastNN : List Char → Option (List Char)
  | [] => none
  | [_] => none
  | c :: d :: rest =>
    match afterLastNN (d :: rest) with
    | some u => some u
    | none => if c = '\n' ∧ d = '\n' then some rest else none

/-- Spec-worded buffer contents: the suffix of the input following the last
occurrence of `"\n\n"`, or the whole input when there is none. -/
def suffixAfterLastNN (s : List Char) : List Char :=
  (afterLastNN s).getD s

/-! ## Remaining definitions used by the claims -/

/-- Envelopes on which the wrapper logic raises no uncaught exception: the
payload does not parse, or it parses to an object whose `data` value (if
present) supports slicing (a string or a list), or to a string/list on
which the `'data' in wrapper` test is `False`.  The excluded cases are
exactly those where `'data' in wrapper`, `wrapper['data']` or
`wrapper['data'][:100]` raises a `TypeError` that no frame-level handler
catches. -/
def envelopeBenign (payload : List Char) : Prop :=
  match parseJson payload with
  | none => True
  | some (.obj kvs) => ∀ v, objGet kvs dataKey = some v → sliceOk v = true
  | some (.str s) => containsSeq dataKey s = false
  | some (.arr xs) =>
    (xs.any (fun x => match x with | .str t => t = dataKey | _ => false)) = false
  | some _ => False

/-- The end-to-end scenario-1 input frame:
`data: {"data":"{\"measurement\":\"env\",\"tags\":{\"location\":\"lab\",\"device\":\"d1\"},\"fields\":{\"temperature\":21.5,\"humidity\":40.2},\"timestamp\":1700000000}"}`
followed by the blank-line delimiter. -/
def scenario1Frame : List Char :=
  ("data: \x7b\"data\":\"\x7b\\\"measurement\\\":\\\"env\\\",\\\"tags\\\":\x7b\\\"location\\\":\\\"lab\\\",\\\"device\\\":\\\"d1\\\"\x7d,\\\"fields\\\":\x7b\\\"temperature\\\":21.5,\\\"humidity\\\":40.2\x7d,\\\"timestamp\\\":1700000000\x7d\"\x7d\n\n").toList

/-- The Time-Series Point scenario 1 must write: measurement `env`, tags
`location=lab`, `device=d1`, fields `temperature=21.5` (= 215/10) and
`humidity=40.2` (= 402/10), timestamp `1700000000000000000` ns. -/
def scenario1Point : Point :=
  { measurement := .str "env".toList
    location := .str "lab".toList
    device := .str "d1".toList
    temperature := mkRat 215 10
    humidity := mkRat 402 10
    time := 1700000000000000000 }

/-- A minimal well-formed Sensor Reading payload, used to instantiate the
timestamp-conversion theorem at a concrete input. -/
def sensorMini : List Char :=
  ("\x7b\"measurement\":\"m\",\"tags\":\x7b\"location\":\"l\",\"device\":\"d\"\x7d,\"fields\":\x7b\"temperature\":1,\"humidity\":2\x7d,\"timestamp\":3\x7d").toList

/-- The parsed form of `sensorMini`. -/
def sensorMiniJson : Json :=
  .obj [(measKey, .str "m".toList),
        (tagsKey, .obj [(locKey, .str "l".toList), (devKey, .str "d".toList)]),
        (fieldsKey, .obj [(tempKey, .num 1), (humKey, .num 2)]),
        (tsKey, .num 3)]

/-- The point `process_event` builds from `sensorMini`. -/
def sensorMiniPoint : Point :=
  { measurement := .str "m".toList
    location := .str "l".toList
    device := .str "d".toList
    temperature := 1
    humidity := 2
    time := 3000000000 }

/-- The scenario-2 payload: an envelope whose `data` field is
`"{\"other\":true}"`. -/
def scenario2Payload : List Char :=
  ("\x7b\"data\":\"\x7b\\\"other\\\":true\x7d\"\x7d").toList

/-- The inner string carried by the scenario-2 envelope: `{"other":true}`. -/
def scenario2Inner : List Char :=
  ("\x7b\"other\":true\x7d").toList

/-! ## Frame-decoder lemmas -/

/-- When the split finds no separator, the trailing piece is the whole
input. -/
theorem splitNN_fst_nil : ∀ s : List Char, (splitNN s).1 = [] → (splitNN s).2 = s := by
  intro s
  induction s using splitNN.induct with
  | case1 => intro _; rfl
  | case2 c => intro _; rfl
  | case3 c d rest hcd ih =>
    simp [splitNN, hcd]
  | case4 c d rest hcd r2 heq ih =>
    intro _
    have h2 : r2 = d :: rest := by
      have := ih (by rw [heq])
      rw [heq] at this
      exact this
    simp [splitNN, hcd, heq, h2]
  | case5 c d rest hcd p ps r2 heq ih =>
    simp [splitNN, hcd, heq]

/-- Splitting is a state homomorphism: splitting `s ++ t` is splitting `s`,
then splitting its trailing piece extended by `t`. -/
theorem splitNN_append (s t : List Char) :
    splitNN (s ++ t) =
      ((splitNN s).1 ++ (splitNN ((splitNN s).2 ++ t)).1,
        (splitNN ((splitNN s).2 ++ t)).2) := by
  induction s using splitNN.induct with
  | case1 => simp [splitNN]
  | case2 c => simp [splitNN]
  | case3 c d rest hcd ih =>
    have hs : splitNN (c :: d :: rest) = ([] :: (splitNN rest).1, (splitNN rest).2) := by
      simp [splitNN, hcd]
    have hl : splitNN ((c :: d :: rest) ++ t)
        = ([] :: (splitNN (rest ++ t)).1, (splitNN (rest ++ t)).2) := by
      simp [splitNN, hcd]
    rw [hl, hs, ih]
    simp
  | case4 c d rest hcd r2 heq ih =>
    have h2 : r2 = d :: rest := by
      have := splitNN_fst_nil (d :: rest) (by rw [heq])
      rw [heq] at this
      exact this
    have hs : splitNN (c :: d :: rest) = ([], c :: d :: rest) := by
      simp [splitNN, hcd, heq, h2]
    rw [hs]
    simp
  | case5 c d rest hcd p ps r2 heq ih =>
    have hs : splitNN (c :: d :: rest) = ((c :: p) :: ps, r2) := by
      simp [splitNN, hcd, heq]
    rw [heq] at ih
    simp only [List.cons_append, List.append_assoc] at ih ⊢
    have hl : splitNN (c :: d :: (rest ++ t))
        = ((c :: p) :: (ps ++ (splitNN (r2 ++ t)).1), (splitNN (r2 ++ t)).2) := by
      simp [splitNN, hcd, ih]
    rw [hl, hs]
    simp

/-- The trailing piece of a split never contains the separator. -/
theorem containsNN_splitNN_snd : ∀ s : List Char, containsNN (splitNN s).2 = false := by
  intro s
  induction s using splitNN.induct with
  | case1 => rfl
  | case2 c => rfl
  | case3 c d rest hcd ih =>
    simpa [splitNN, hcd] using ih
  | case4 c d rest hcd r2 heq ih =>
    have h2 : r2 = d :: rest := by
      have := splitNN_fst_nil (d :: rest) (by rw [heq])
      rw [heq] at this
      exact this
    rw [heq] at ih
    simp only [splitNN, if_neg hcd, heq]
    simpa [containsNN, hcd, h2] using ih
  | case5 c d rest hcd p ps r2 heq ih =>
    rw [heq] at ih
    simpa [splitNN, hcd, heq] using ih

/-- A separator-free buffer splits into no complete piece. -/
theorem splitNN_of_not_containsNN : ∀ s : List Char, containsNN s = false →
    splitNN s = ([], s) := by
  intro s
  induction s using splitNN.induct with
  | case1 => intro _; rfl
  | case2 c => intro _; rfl
  | case3 c d rest hcd ih =>
    intro h
    simp [containsNN, hcd] at h
  | case4 c d rest hcd r2 heq ih =>
    intro h
    have h' : containsNN (d :: rest) = false := by
      simpa [containsNN, hcd] using h
    have h2 : r2 = d :: rest := by
      have := ih h'
      rw [heq] at this
      exact (Prod.mk.injEq _ _ _ _ ▸ this).2
    simp [splitNN, hcd, heq, h2]
  | case5 c d rest hcd p ps r2 heq ih =>
    intro h
    have h' : containsNN (d :: rest) = false := by
      simpa [containsNN, hcd] using h
    rw [ih h'] at heq
    simp at heq

/-- Running the chunk loop from a separator-free buffer: the final buffer
and the emitted payloads are those of splitting the total input. -/
theorem runDecoder_eq (cs : List (List Char)) : ∀ buf : List Char,
    containsNN buf = false →
    runDecoder buf cs =
      ((splitNN (buf ++ cs.flatten)).2,
        (splitNN (buf ++ cs.flatten)).1.filterMap msgEmit) := by
  induction cs with
  | nil =>
    intro buf h
    simp [runDecoder, splitNN_of_not_containsNN buf h]
  | cons c cs ih =>
    intro buf h
    simp only [runDecoder, feedStep]
    by_cases hc : c = []
    · subst hc
      rw [if_pos rfl, ih buf h]
      simp
    · rw [if_neg hc]
      by_cases hnn : containsNN (buf ++ c) = true
      · rw [if_pos hnn, ih _ (containsNN_splitNN_snd (buf ++ c))]
        have := splitNN_append (buf ++ c) cs.flatten
        rw [List.flatten_cons, ← List.append_assoc, this]
        simp [List.filterMap_append]
      · rw [if_neg hnn, ih _ (by simpa using hnn)]
        simp [List.append_assoc]

/-! ## Envelope lemmas -/

/-- A dict lookup that succeeds implies the key-membership test succeeds. -/
theorem keyMem_of_objGet (kvs : List (List Char × Json)) (k : List Char) (v : Json)
    (h : objGet kvs k = some v) : keyMem kvs k = true := by
  induction kvs with
  | nil => simp [objGet] at h
  | cons kv rest ih =>
    rw [objGet] at h
    cases hr : objGet rest k with
    | some r =>
      rw [hr] at h
      cases h
      have ih' := ih hr
      simp only [keyMem] at ih' ⊢
      simp [List.any_cons, ih']
    | none =>
      rw [hr] at h
      by_cases hk : kv.1 = k
      · simp [keyMem, List.any_cons, hk]
      · rw [if_neg hk] at h
        cases h

/-- A successful key-membership test implies the dict lookup succeeds. -/
theorem objGet_isSome_of_keyMem (kvs : List (List Char × Json)) (k : List Char)
    (h : keyMem kvs k = true) : (objGet kvs k).isSome = true := by
  induction kvs with
  | nil => simp [keyMem] at h
  | cons kv rest ih =>
    rw [objGet]
    cases hr : objGet rest k with
    | some r => simp
    | none =>
      simp only [keyMem, List.any_cons, Bool.or_eq_true, decide_eq_true_eq] at h
      rcases h with h | h
      · simp [h]
      · have := ih h
        rw [hr] at this
        simp at this

/-- Truncating integer division by one is the identity (`int()` applied to
an integral value). -/
theorem int_tdiv_one (n : Int) : n.tdiv 1 = n := by
  cases n with
  | ofNat m => simp [Int.tdiv]
  | negSucc m => simp [Int.tdiv, Int.negSucc_eq]

/-- Lemma: `process_event` only reports a JSON decode error when its argument does
not parse. -/
theorem process_event_ne_decodeErr (sink : Point → Bool) (s : List Char) (v : Json)
    (h : parseJson s = some v) : process_event sink s ≠ .decodeErr := by
  rw [process_event, h]
  repeat' split
  all_goals simp_all

/-! ## Claims -/

/-- C2: for every input character sequence and every way of splitting it
into chunks of size at least 1, feeding the chunks to the frame-decoding
loop yields exactly the same ordered sequence of extracted payload strings
as any other chunking of the same sequence (chunk-size invariance of the
Frame Decoder). -/
theorem frameDecoderChunkInvariance (cs ds : List (List Char))
    (hcs : ∀ c ∈ cs, c ≠ []) (hds : ∀ d ∈ ds, d ≠ [])
    (h : cs.flatten = ds.flatten) :
    (runDecoder [] cs).2 = (runDecoder [] ds).2 := by
  rw [runDecoder_eq cs [] rfl, runDecoder_eq ds [] rfl, h]

/-- Witness for C2 at a concrete input: `"data: x\n\nrest"` fed whole and
fed in three chunks produce the same payload sequence. -/
theorem frameDecoderChunkInvariance_w :
    (runDecoder [] ["data: x\n\nrest".toList]).2
      = (runDecoder [] ["data: x".toList, "\n\nre".toList, "st".toList]).2 :=
  frameDecoderChunkInvariance ["data: x\n\nrest".toList]
    ["data: x".toList, "\n\nre".toList, "st".toList]
    (by decide) (by decide) (by decide)

/-- C8 (amended): after processing each chunk the accumulation buffer holds
exactly the trailing piece of the greedy non-overlapping left-to-right
splitting of the total input received so far on `"\n\n"` (the whole input
when no delimiter was consumed); buffered data is thus never discarded
except when consumed as part of a complete frame, and what remains at
end-of-stream is simply dropped. -/
theorem bufferIsSplitRemainder (cs : List (List Char)) :
    (runDecoder [] cs).1 = (splitNN cs.flatten).2 := by
  rw [runDecoder_eq cs [] rfl]
  simp

/-- C8 counterexample: for total input `"a\n\n\n"` the buffer is `"\n"`,
whereas the suffix following the last substring occurrence of `"\n\n"` is
`""` — the claim's "suffix ... that follows the last `\n\n` delimiter"
does not hold when occurrences of the delimiter overlap. -/
theorem bufferIsNotLastOccurrenceSuffix :
    (runDecoder [] ["a\n\n\n".toList]).1 ≠ suffixAfterLastNN ("a\n\n\n".toList) := by
  decide

/-- C3: consecutive failed connection attempts produce non-decreasing wait
times, each wait equal to `min(previous*2, 60)`; the delay is reset to 5
after any successful connection; and three consecutive failures from a
fresh start (initial delay 5) produce observed waits of exactly 5, 10 and
20 before the fourth attempt. -/
theorem backoffBehaviour :
    (∀ (d k : Nat), d ≤ 60 →
      List.Chain' (fun a b => b = min (a * 2) 60 ∧ a ≤ b)
        (supervisor d (List.replicate k .failConn)))
    ∧ (∀ (d : Nat) (rest : List Attempt),
        supervisor d (.okClean :: rest) = supervisor 5 rest)
    ∧ (∀ rest : List Attempt,
        supervisor 5 (.failConn :: .failConn :: .failConn :: rest)
          = 5 :: 10 :: 20 :: supervisor 40 rest) := by
  refine ⟨?_, ?_, ?_⟩
  · intro d k
    induction k generalizing d with
    | zero => intro _; simp [supervisor]
    | succ k ih =>
      intro hd
      rw [List.replicate_succ]
      cases k with
      | zero => simp [supervisor]
      | succ k' =>
        have h2 : supervisor d (.failConn :: List.replicate (k' + 1) .failConn)
            = d :: supervisor (min (d * 2) 60) (List.replicate (k' + 1) .failConn) := rfl
        have h3 : supervisor (min (d * 2) 60) (List.replicate (k' + 1) .failConn)
            = min (d * 2) 60
              :: supervisor (min (min (d * 2) 60 * 2) 60) (List.replicate k' .failConn) := by
          rw [List.replicate_succ]
          rfl
        rw [h2, h3, List.chain'_cons]
        refine ⟨⟨rfl, le_min (by omega) hd⟩, ?_⟩
        rw [← h3]
        exact ih (min (d * 2) 60) (min_le_right _ _)
  · intro d rest; rfl
  · intro rest; rfl

/-- Witness for C3 at concrete inputs: the chain property for three
failures starting at delay 5, the reset after a success at delay 40, and
the 5/10/20 scenario with an empty continuation. -/
theorem backoffBehaviour_w :
    List.Chain' (fun a b => b = min (a * 2) 60 ∧ a ≤ b)
      (supervisor 5 (List.replicate 3 .failConn))
    ∧ supervisor 40 (.okClean :: [.failConn]) = supervisor 5 [.failConn]
    ∧ supervisor 5 [.failConn, .failConn, .failConn] = [5, 10, 20] :=
  ⟨backoffBehaviour.1 5 3 (by decide),
   backoffBehaviour.2.1 40 [.failConn],
   backoffBehaviour.2.2 []⟩

/-- C6: within a complete frame, the extracted payload is the remainder,
after the prefix, of the first line beginning with the literal prefix
`data: `; lines not beginning with that prefix are ignored, and a frame
containing no such line yields no payload. -/
theorem framePayloadFromFirstDataLine :
    (∀ l r : List Char,
      lineData l = some r ↔ (startsWithSeq dataMark l = true ∧ r = l.drop 6))
    ∧ (∀ lines : List (List Char),
        (∀ l ∈ lines, lineData l = none) → findData lines = none)
    ∧ (∀ (pre : List (List Char)) (line r : List Char) (post : List (List Char)),
        (∀ l ∈ pre, lineData l = none) → lineData line = some r →
        findData (pre ++ line :: post) = some r) := by
  refine ⟨?_, ?_, ?_⟩
  · intro l r
    unfold lineData
    by_cases hsw : startsWithSeq dataMark l = true
    · simp [hsw, eq_comm]
    · simp [hsw]
  · intro lines h
    induction lines with
    | nil => rfl
    | cons line rest ih =>
      rw [findData, h line (by simp)]
      exact ih (fun l hl => h l (by simp [hl]))
  · intro pre line r post hpre hline
    induction pre with
    | nil => rw [List.nil_append, findData, hline]
    | cons q qs ih =>
      rw [List.cons_append, findData, hpre q (by simp)]
      exact ih (fun l hl => hpre l (by simp [hl]))

/-- Witness for C6 at concrete inputs: the prefix characterization on the
line `data: hi`, the no-`data:`-line case, and first-of-several
extraction with a non-matching line before and a matching line after. -/
theorem framePayloadFromFirstDataLine_w :
    lineData ("data: hi".toList) = some ("hi".toList)
    ∧ findData ["x: 1".toList, "y".toList] = none
    ∧ findData (["x: 1".toList] ++ "data: hi".toList :: ["data: no".toList])
        = some ("hi".toList) :=
  ⟨(framePayloadFromFirstDataLine.1 ("data: hi".toList) ("hi".toList)).mpr
      (by constructor <;> decide),
   framePayloadFromFirstDataLine.2.1 ["x: 1".toList, "y".toList] (by decide),
   framePayloadFromFirstDataLine.2.2 ["x: 1".toList] ("data: hi".toList)
     ("hi".toList) ["data: no".toList] (by decide) (by decide)⟩

/-- C9: a frame whose `data: ` line has an empty remainder yields no
payload, exactly like a frame with no `data:` line at all — the extracted
payload is tested for truthiness (`if event_data:`), and the empty string
is falsy. -/
theorem emptyDataPayloadYieldsNothing (msg : List Char)
    (h : findData (splitLines msg) = some []
      ∨ findData (splitLines msg) = none) :
    msgEmit msg = none := by
  unfold msgEmit
  by_cases hs : msg.all isPySpace = true
  · simp [hs]
  · rcases h with h | h <;> simp [hs, h]

/-- Witness for C9 at a concrete input: the message consisting of exactly
the line `data: ` emits nothing. -/
theorem emptyDataPayloadYieldsNothing_w : msgEmit ("data: ".toList) = none :=
  emptyDataPayloadYieldsNothing ("data: ".toList) (Or.inl (by decide))

set_option maxRecDepth 8000 in
/-- C4: feeding the decoder the single complete scenario-1 frame results in
exactly one Sink write, whose point has measurement `env`, tags
`location=lab`, `device=d1`, fields `temperature=21.5`, `humidity=40.2`
and timestamp `1700000000000000000` nanoseconds — and the connection is
not torn down. -/
theorem endToEndScenario1 :
    runBridge (fun _ => true) [scenario1Frame] = ([scenario1Point], false) := by
  rfl

/-- C5: for every accepted Sensor Reading whose `timestamp` value is the
integer `q`, the written point's timestamp equals `q * 1_000_000_000`
(seconds to nanoseconds). -/
theorem timestampSecondsToNanoseconds (sink : Point → Bool) (s : List Char)
    (d : Json) (q : ℚ) (p : Point)
    (hd : parseJson s = some d)
    (ht : jsonGet d tsKey = some (.num q))
    (hq : q.den = 1)
    (hw : process_event sink s = .wrote p) :
    p.time = q.num * 1000000000 := by
  unfold process_event at hw
  simp only [hd] at hw
  cases hb : buildPoint d with
  | none => simp only [hb] at hw; cases hw
  | some p0 =>
    simp only [hb] at hw
    have hp : p0 = p := by
      by_cases hs : sink p0 = true
      · rw [if_pos hs] at hw; cases hw; rfl
      · rw [if_neg (by simp [hs])] at hw; cases hw
    subst hp
    rw [buildPoint] at hb
    simp only [Option.bind_eq_bind, Option.bind_eq_some] at hb
    obtain ⟨meas, hm, tags, htg, fields, hf, ts, hts, n, hn, loc, hl, dev, hdev,
      tv, htv, hv, hhv, tq, htq, hqq, hhq, hfin⟩ := hb
    rw [ht] at hts
    cases hts
    simp only [pyIntOfJson, Option.some.injEq] at hn
    cases hfin
    simp only [hq] at hn
    rw [← hn]
    simp [int_tdiv_one]

/-- The inner-block outcome is never `process_event`'s decode-error
branch: when `sensorCheck` reaches `process_event`, its own parse of the
same string has already succeeded, and the re-parse is deterministic. -/
theorem sensorCheck_snd_ne_decodeErr (sink : Point → Bool) (s : List Char) :
    (sensorCheck sink s).2 ≠ .processed .decodeErr := by
  unfold sensorCheck
  cases hps : parseJson s with
  | none => simp
  | some sd =>
    have hne := process_event_ne_decodeErr sink s sd hps
    repeat' split
    all_goals simp_all

/-- Witness for C5 at a concrete input: a minimal sensor reading with
integer timestamp 3 yields a point timestamp of exactly 3·10⁹. -/
theorem timestampSecondsToNanoseconds_w :
    sensorMiniPoint.time = (3 : ℚ).num * 1000000000 :=
  timestampSecondsToNanoseconds (fun _ => true) sensorMini sensorMiniJson 3
    sensorMiniPoint (by decide) (by decide) (by decide) (by decide)

/-- C10: the JSON-decode-error handler inside `process_event` is
unreachable from the stream loop: `process_event` is invoked only on a
`data` string the loop has just parsed successfully, and the deterministic
re-parse of the same string cannot fail. -/
theorem processEventReparseNeverFails (sink : Point → Bool) (payload : List Char)
    (out : List LogKind × PayloadResult)
    (h : processPayload sink payload = some out) :
    out.2 ≠ .processed .decodeErr := by
  unfold processPayload at h
  repeat' split at h
  all_goals cases h
  all_goals try simp
  all_goals exact sensorCheck_snd_ne_decodeErr _ _

/-- Witness for C10 at a concrete input: the payload `"x"` produces the
no-`data`-field outcome, which is not a decode-error outcome. -/
theorem processEventReparseNeverFails_w :
    (([LogKind.noDataField], PayloadResult.noData) : List LogKind × PayloadResult).2
      ≠ .processed .decodeErr :=
  processEventReparseNeverFails (fun _ => true) ("\"x\"".toList)
    ([.noDataField], .noData) (by decide)

/-- C7: a payload whose envelope is an object carrying a `data` string that
parses as JSON but fails the `measurement`/`fields` structural check
yields the informational-skip outcome: no Sink write, exactly one
informational skip log, no error log, and no connection teardown. -/
theorem notSensorReadingSkipped (sink : Point → Bool) (payload s : List Char)
    (kvs : List (List Char × Json)) (v : Json)
    (hp : parseJson payload = some (.obj kvs))
    (hdt : objGet kvs dataKey = some (.str s))
    (hv : parseJson s = some v)
    (hmiss : pyIn measKey v = .ok false
      ∨ (pyIn measKey v = .ok true ∧ pyIn fieldsKey v = .ok false)) :
    processPayload sink payload = some ([.eventReceived, .notSensorFmt], .notSensorFmt)
    ∧ resultWrites .notSensorFmt = []
    ∧ LogKind.isErrLog .eventReceived = false
    ∧ LogKind.isErrLog .notSensorFmt = false
    ∧ ([LogKind.eventReceived, LogKind.notSensorFmt].count .notSensorFmt) = 1 := by
  have hk : keyMem kvs dataKey = true := keyMem_of_objGet _ _ _ hdt
  refine ⟨?_, rfl, rfl, rfl, rfl⟩
  have hsc : sensorCheck sink s = ([.eventReceived, .notSensorFmt], .notSensorFmt) := by
    unfold sensorCheck
    simp only [hv]
    rcases hmiss with hm | ⟨hm1, hm2⟩
    · rw [hm]
    · rw [hm1, hm2]
  unfold processPayload
  rw [hp]
  simp only [show pyIn dataKey (Json.obj kvs) = .ok (keyMem kvs dataKey) from rfl,
    hk, show pyIndexStr (Json.obj kvs) dataKey = objGet kvs dataKey from rfl,
    hdt, sliceOk, if_true, hsc]

/-- Witness for C7 at the scenario-2 input: the envelope whose `data`
field is `"{\"other\":true}"`. -/
theorem notSensorReadingSkipped_w :
    (processPayload (fun _ => true) scenario2Payload
        = some ([.eventReceived, .notSensorFmt], .notSensorFmt)
      ∧ resultWrites .notSensorFmt = []
      ∧ LogKind.isErrLog .eventReceived = false
      ∧ LogKind.isErrLog .notSensorFmt = false
      ∧ ([LogKind.eventReceived, LogKind.notSensorFmt].count .notSensorFmt) = 1) :=
  notSensorReadingSkipped (fun _ => true) scenario2Payload scenario2Inner
    [(dataKey, .str scenario2Inner)] (.obj [("other".toList, .bool true)])
    (by decide) (by decide) (by decide) (Or.inl rfl)

/-- C1 (amended): a payload failing any validation step never produces a
Sink write; and — provided the envelope raises no uncaught `TypeError` in
the wrapper handling (`envelopeBenign`) — processing never tears down the
connection either, so the stream loop proceeds to the next frame.  The
original claim's quantification over every JSON-representable envelope is
refuted by `numericEnvelopeTearsDown`. -/
theorem validationFailureKeepsConnection (sink : Point → Bool) (payload : List Char)
    (hb : envelopeBenign payload) :
    (processPayload sink payload).isSome = true
    ∧ ∀ out, processPayload sink payload = some out →
        (∀ pt : Point, out.2 ≠ .processed (.wrote pt)) → resultWrites out.2 = [] := by
  constructor
  · cases hpj : parseJson payload with
    | none => simp [processPayload, hpj]
    | some w =>
      cases w with
      | null =>
        have : False := by unfold envelopeBenign at hb; rw [hpj] at hb; exact hb
        exact this.elim
      | bool b =>
        have : False := by unfold envelopeBenign at hb; rw [hpj] at hb; exact hb
        exact this.elim
      | num q =>
        have : False := by unfold envelopeBenign at hb; rw [hpj] at hb; exact hb
        exact this.elim
      | nonfinite k =>
        have : False := by unfold envelopeBenign at hb; rw [hpj] at hb; exact hb
        exact this.elim
      | str s =>
        have hb' : containsSeq dataKey s = false := by
          unfold envelopeBenign at hb; rw [hpj] at hb; exact hb
        simp [processPayload, hpj, pyIn, hb']
      | arr xs =>
        have hb' : (xs.any fun x => match x with | .str t => t = dataKey | _ => false)
            = false := by
          unfold envelopeBenign at hb; rw [hpj] at hb; exact hb
        simp [processPayload, hpj, pyIn, hb']
      | obj kvs =>
        have hb' : ∀ v, objGet kvs dataKey = some v → sliceOk v = true := by
          unfold envelopeBenign at hb; rw [hpj] at hb; exact hb
        unfold processPayload
        rw [hpj]
        simp only [pyIn]
        cases hk : keyMem kvs dataKey with
        | false => simp
        | true =>
          have hsome := objGet_isSome_of_keyMem kvs dataKey hk
          cases ho : objGet kvs dataKey with
          | none => rw [ho] at hsome; simp at hsome
          | some v =>
            have hsl := hb' v ho
            simp only [show pyIndexStr (Json.obj kvs) dataKey = objGet kvs dataKey from rfl,
              ho, hsl, if_true]
            cases v <;> simp
  · intro out hout hnw
    rcases out with ⟨logs, r⟩
    cases r with
    | wrapperParseFail => rfl
    | noData => rfl
    | dataNotJson => rfl
    | notSensorFmt => rfl
    | processed r' =>
      cases r' with
      | decodeErr => rfl
      | genErr => rfl
      | wrote pt => exact ((hnw pt) rfl).elim

/-- C1 counterexample: the payload `5` is valid JSON and fails validation
(it has no `data` member), yet processing it raises an uncaught
`TypeError` at `'data' in wrapper` — tearing the connection down — because
the surrounding handler only catches `json.JSONDecodeError`.  The claim's
"including non-object wrapper values" is therefore false on the code. -/
theorem numericEnvelopeTearsDown :
    processPayload (fun _ => true) ("5".toList) = none := by
  decide

/-- Witness for C1 (amended) at a concrete input: the payload `[]` (a
benign non-object envelope) is discarded without teardown and without a
write. -/
theorem validationFailureKeepsConnection_w :
    (processPayload (fun _ => true) ("[]".toList)).isSome = true
    ∧ ∀ out, processPayload (fun _ => true) ("[]".toList) = some out →
        (∀ pt : Point, out.2 ≠ .processed (.wrote pt)) → resultWrites out.2 = [] :=
  validationFailureKeepsConnection (fun _ => true) ("[]".toList) rfl

end Bridge
